import Mathlib

/-!
Verification of the Mergington High School activities service (src/app.py).

The service stores Activity and Participant rows plus a `signups` join
table in a relational store, and exposes three operations:
`get_activities` (list all activities with rosters), `signup_for_activity`
and `unregister_from_activity`.  We model the store state as a `DB`
structure and each endpoint as a function `DB → result × DB`, mirroring
the Python handlers line by line.
-/

namespace Mergington

/-- A row of the `activities` table: surrogate id, unique name,
description, schedule and `max_participants` (SQL `Integer`, 0 meaning
unlimited). -/
structure Activity where
  id : Nat
  name : String
  description : String
  schedule : String
  max_participants : Int
deriving DecidableEq, Repr

/-- A row of the `participants` table: surrogate id and unique email. -/
structure Participant where
  id : Nat
  email : String
deriving DecidableEq, Repr

/-- The relational store: the three tables plus the autoincrement
counters for the two surrogate-id columns.  `signups` holds
(activity_id, participant_id) pairs. -/
structure DB where
  activities : List Activity
  participants : List Participant
  signups : List (Nat × Nat)
  nextActivityId : Nat
  nextParticipantId : Nat
deriving DecidableEq, Repr

/-- A store with no rows, as after `Base.metadata.create_all` on a fresh
database file (SQLite autoincrement starts at 1). -/
def emptyDB : DB := ⟨[], [], [], 1, 1⟩

/-- `db.query(Activity).filter_by(name=name).first()`. -/
def findActivityByName (db : DB) (name : String) : Option Activity :=
  db.activities.find? (fun a => a.name == name)

/-- `db.query(Participant).filter_by(email=email).first()`. -/
def findParticipantByEmail (db : DB) (email : String) : Option Participant :=
  db.participants.find? (fun p => p.email == email)

/-- `activity.participants`: the Participant rows related to `a` through
the `signups` join table. -/
def participantsOf (db : DB) (a : Activity) : List Participant :=
  db.participants.filter (fun p => decide ((a.id, p.id) ∈ db.signups))

/-- Outcome of the signup endpoint, one constructor per exit of
`signup_for_activity`. -/
inductive SignupResult where
  | notFound
  | alreadyEnrolled
  | full
  | success
deriving DecidableEq, Repr

/-- HTTP status code carried by each signup outcome. -/
def SignupResult.status : SignupResult → Nat
  | .notFound => 404
  | .alreadyEnrolled => 400
  | .full => 400
  | .success => 200

/-- Outcome of the unregister endpoint, one constructor per exit of
`unregister_from_activity`. -/
inductive UnregisterResult where
  | notFound
  | notEnrolled
  | success
deriving DecidableEq, Repr

/-- HTTP status code carried by each unregister outcome. -/
def UnregisterResult.status : UnregisterResult → Nat
  | .notFound => 404
  | .notEnrolled => 400
  | .success => 200

/-- The view of one activity produced by `GET /activities`. -/
structure ActivityView where
  description : String
  schedule : String
  max_participants : Int
  participants : List String
deriving DecidableEq, Repr

/-- `get_activities`: for every stored activity, its name mapped to
description, schedule, capacity and current participant emails.  The
handler only reads, so the store comes back unchanged. -/
def get_activities (db : DB) : List (String × ActivityView) × DB :=
  (db.activities.map (fun a =>
    (a.name, ⟨a.description, a.schedule, a.max_participants,
      (participantsOf db a).map Participant.email⟩)), db)

/-- `signup_for_activity(activity_name, email)`:
look up the activity (404 if absent); reject if the email is already on
the roster; reject if `max_participants` is truthy (non-zero) and the
roster has reached it; otherwise find-or-create the participant and add
the join row. -/
def signup_for_activity (db : DB) (activity_name email : String) :
    SignupResult × DB :=
  match findActivityByName db activity_name with
  | none => (.notFound, db)
  | some activity =>
    if (participantsOf db activity).any (fun p => p.email == email) then
      (.alreadyEnrolled, db)
    else if activity.max_participants ≠ 0 ∧
        ((participantsOf db activity).length : Int) ≥ activity.max_participants then
      (.full, db)
    else
      match findParticipantByEmail db email with
      | some participant =>
        (.success, { db with
          signups := db.signups ++ [(activity.id, participant.id)] })
      | none =>
        let participant : Participant := ⟨db.nextParticipantId, email⟩
        (.success, { db with
          participants := db.participants ++ [participant],
          nextParticipantId := db.nextParticipantId + 1,
          signups := db.signups ++ [(activity.id, participant.id)] })

/-- `unregister_from_activity(activity_name, email)`:
look up the activity (404 if absent); look up the participant by email,
rejecting if absent or not on this activity's roster; otherwise delete
the join row. -/
def unregister_from_activity (db : DB) (activity_name email : String) :
    UnregisterResult × DB :=
  match findActivityByName db activity_name with
  | none => (.notFound, db)
  | some activity =>
    match findParticipantByEmail db email with
    | none => (.notEnrolled, db)
    | some participant =>
      if participant ∈ participantsOf db activity then
        (.success, { db with
          signups := db.signups.erase (activity.id, participant.id) })
      else
        (.notEnrolled, db)

/-- Metadata of one seeded activity in `initial_activities`. -/
structure SeedMeta where
  description : String
  schedule : String
  max_participants : Int
  participants : List String
deriving DecidableEq, Repr

/-- The `initial_activities` dict, in insertion order. -/
def initial_activities : List (String × SeedMeta) :=
  [("Chess Club",
    ⟨"Learn strategies and compete in chess tournaments",
     "Fridays, 3:30 PM - 5:00 PM", 12,
     ["michael@mergington.edu", "daniel@mergington.edu"]⟩),
   ("Programming Class",
    ⟨"Learn programming fundamentals and build software projects",
     "Tuesdays and Thursdays, 3:30 PM - 4:30 PM", 20,
     ["emma@mergington.edu", "sophia@mergington.edu"]⟩),
   ("Gym Class",
    ⟨"Physical education and sports activities",
     "Mondays, Wednesdays, Fridays, 2:00 PM - 3:00 PM", 30,
     ["john@mergington.edu", "olivia@mergington.edu"]⟩)]

/-- The body of `seed_db`'s inner loop: find-or-create the Participant
for `email` and append the join row for the activity with id `aid`. -/
def seedEnroll (aid : Nat) (d : DB) (email : String) : DB :=
  match findParticipantByEmail d email with
  | some p => { d with signups := d.signups ++ [(aid, p.id)] }
  | none =>
    let p : Participant := ⟨d.nextParticipantId, email⟩
    { d with
      participants := d.participants ++ [p],
      nextParticipantId := d.nextParticipantId + 1,
      signups := d.signups ++ [(aid, p.id)] }

/-- The body of `seed_db`'s outer loop for one `initial_activities`
entry: insert the Activity row (flush assigns its id), then for each
listed email find-or-create the Participant and append the join row. -/
def seedOne (db : DB) (name : String) (meta : SeedMeta) : DB :=
  let activity : Activity :=
    ⟨db.nextActivityId, name, meta.description, meta.schedule,
     meta.max_participants⟩
  let db' : DB := { db with
    activities := db.activities ++ [activity],
    nextActivityId := db.nextActivityId + 1 }
  meta.participants.foldl (seedEnroll activity.id) db'

/-- `seed_db`: skipped entirely when any Activity row already exists;
otherwise populate `initial_activities`. -/
def seed_db (db : DB) : DB :=
  match db.activities.head? with
  | some _ => db
  | none => initial_activities.foldl (fun d nm => seedOne d nm.1 nm.2) db

/-! ## Data-model invariants -/

/-- Validity of a store state: the schema's uniqueness constraints
(`name UNIQUE`, `email UNIQUE`, primary key on the `signups` pair), the
data model's non-negative capacity with the business rule that a roster
never exceeds a positive capacity, and the autoincrement discipline of
the participant id column (every stored participant id, and every
participant id referenced from `signups`, is below the counter). -/
structure Wf (db : DB) : Prop where
  namesUnique : db.activities.Pairwise (fun a b => a.name ≠ b.name)
  actIdsUnique : db.activities.Pairwise (fun a b => a.id ≠ b.id)
  emailsUnique : db.participants.Pairwise (fun p q => p.email ≠ q.email)
  pidsUnique : db.participants.Pairwise (fun p q => p.id ≠ q.id)
  signupsNodup : db.signups.Nodup
  maxNonneg : ∀ a ∈ db.activities, 0 ≤ a.max_participants
  capacity : ∀ a ∈ db.activities, 0 < a.max_participants →
    ((participantsOf db a).length : Int) ≤ a.max_participants
  signupPidBound : ∀ s ∈ db.signups, s.2 < db.nextParticipantId
  pidBound : ∀ p ∈ db.participants, p.id < db.nextParticipantId

/-! ## Basic lemmas about lookups and rosters -/

lemma findActivityByName_eq_some {db : DB} {n : String} {a : Activity}
    (h : findActivityByName db n = some a) : a ∈ db.activities ∧ a.name = n := by
  refine ⟨List.mem_of_find?_eq_some h, ?_⟩
  have := List.find?_some h
  simpa using this

lemma findParticipantByEmail_eq_some {db : DB} {e : String} {p : Participant}
    (h : findParticipantByEmail db e = some p) :
    p ∈ db.participants ∧ p.email = e := by
  refine ⟨List.mem_of_find?_eq_some h, ?_⟩
  have := List.find?_some h
  simpa using this

lemma findParticipantByEmail_eq_none {db : DB} {e : String}
    (h : findParticipantByEmail db e = none) :
    ∀ q ∈ db.participants, q.email ≠ e := by
  intro q hq
  have := List.find?_eq_none.mp h q hq
  simpa using this

lemma mem_participantsOf {db : DB} {a : Activity} {p : Participant} :
    p ∈ participantsOf db a ↔
      p ∈ db.participants ∧ (a.id, p.id) ∈ db.signups := by
  simp [participantsOf, List.mem_filter]

lemma any_email_eq_false_iff {db : DB} {a : Activity} {e : String} :
    ((participantsOf db a).any (fun p => p.email == e) = false) ↔
      ∀ q ∈ participantsOf db a, q.email ≠ e := by
  simp [List.any_eq_false]

/-- Counting a filtered list when the predicate flips from false to true
at exactly one element of a duplicate-free list. -/
lemma length_filter_flip {α : Type} {l : List α} {f g : α → Bool} {p : α}
    (hl : l.Nodup) (hp : p ∈ l) (hfp : f p = false) (hgp : g p = true)
    (hfg : ∀ q ∈ l, q ≠ p → g q = f q) :
    (l.filter g).length = (l.filter f).length + 1 := by
  induction l with
  | nil => cases hp
  | cons x xs ih =>
    rcases List.mem_cons.mp hp with rfl | hpxs
    · have hnotin : p ∉ xs := (List.nodup_cons.mp hl).1
      have hfilter : xs.filter g = xs.filter f := by
        apply List.filter_congr
        intro q hq
        exact hfg q (List.mem_cons_of_mem _ hq)
          (fun hqp => hnotin (hqp ▸ hq))
      simp [List.filter_cons, hgp, hfp, hfilter]
    · have hxp : x ≠ p := by
        rintro rfl
        exact (List.nodup_cons.mp hl).1 hpxs
      have hgx : g x = f x := hfg x (List.mem_cons_self _ _) hxp
      have hrec := ih (List.nodup_cons.mp hl).2 hpxs
        (fun q hq hqp => hfg q (List.mem_cons_of_mem _ hq) hqp)
      cases hfx : f x <;>
        simp [List.filter_cons, hgx, hfx, hrec]

lemma pid_ne_symm : Symmetric (fun x y : Participant => x.id ≠ y.id) :=
  fun _ _ h heq => h heq.symm

lemma aid_ne_symm : Symmetric (fun x y : Activity => x.id ≠ y.id) :=
  fun _ _ h heq => h heq.symm

lemma participants_nodup {db : DB}
    (h : db.participants.Pairwise (fun p q => p.id ≠ q.id)) :
    db.participants.Nodup := by
  refine h.imp ?_
  intro p q hid heq
  exact hid (congrArg Participant.id heq)

/-! ## Branch shapes of the two write endpoints -/

lemma signup_eq_notFound {db : DB} {n e : String}
    (hfa : findActivityByName db n = none) :
    signup_for_activity db n e = (.notFound, db) := by
  simp [signup_for_activity, hfa]

lemma signup_eq_already {db : DB} {n e : String} {a : Activity}
    (hfa : findActivityByName db n = some a)
    (hany : (participantsOf db a).any (fun p => p.email == e) = true) :
    signup_for_activity db n e = (.alreadyEnrolled, db) := by
  simp [signup_for_activity, hfa, hany]

lemma signup_eq_full {db : DB} {n e : String} {a : Activity}
    (hfa : findActivityByName db n = some a)
    (hany : (participantsOf db a).any (fun p => p.email == e) = false)
    (hcap : a.max_participants ≠ 0 ∧
      ((participantsOf db a).length : Int) ≥ a.max_participants) :
    signup_for_activity db n e = (.full, db) := by
  simp [signup_for_activity, hfa, hany, hcap]

lemma signup_eq_success_existing {db : DB} {n e : String} {a : Activity}
    {p : Participant}
    (hfa : findActivityByName db n = some a)
    (hany : (participantsOf db a).any (fun p => p.email == e) = false)
    (hcap : ¬(a.max_participants ≠ 0 ∧
      ((participantsOf db a).length : Int) ≥ a.max_participants))
    (hfp : findParticipantByEmail db e = some p) :
    signup_for_activity db n e =
      (.success, { db with signups := db.signups ++ [(a.id, p.id)] }) := by
  simp [signup_for_activity, hfa, hany, hcap, hfp]

lemma signup_eq_success_new {db : DB} {n e : String} {a : Activity}
    (hfa : findActivityByName db n = some a)
    (hany : (participantsOf db a).any (fun p => p.email == e) = false)
    (hcap : ¬(a.max_participants ≠ 0 ∧
      ((participantsOf db a).length : Int) ≥ a.max_participants))
    (hfp : findParticipantByEmail db e = none) :
    signup_for_activity db n e =
      (.success, { db with
        participants := db.participants ++ [⟨db.nextParticipantId, e⟩],
        nextParticipantId := db.nextParticipantId + 1,
        signups := db.signups ++ [(a.id, db.nextParticipantId)] }) := by
  simp [signup_for_activity, hfa, hany, hcap, hfp]

lemma unregister_eq_notFound {db : DB} {n e : String}
    (hfa : findActivityByName db n = none) :
    unregister_from_activity db n e = (.notFound, db) := by
  simp [unregister_from_activity, hfa]

lemma unregister_eq_noParticipant {db : DB} {n e : String} {a : Activity}
    (hfa : findActivityByName db n = some a)
    (hfp : findParticipantByEmail db e = none) :
    unregister_from_activity db n e = (.notEnrolled, db) := by
  simp [unregister_from_activity, hfa, hfp]

lemma unregister_eq_notEnrolled {db : DB} {n e : String} {a : Activity}
    {p : Participant}
    (hfa : findActivityByName db n = some a)
    (hfp : findParticipantByEmail db e = some p)
    (hmem : p ∉ participantsOf db a) :
    unregister_from_activity db n e = (.notEnrolled, db) := by
  simp [unregister_from_activity, hfa, hfp, hmem]

lemma unregister_eq_success {db : DB} {n e : String} {a : Activity}
    {p : Participant}
    (hfa : findActivityByName db n = some a)
    (hfp : findParticipantByEmail db e = some p)
    (hmem : p ∈ participantsOf db a) :
    unregister_from_activity db n e =
      (.success, { db with signups := db.signups.erase (a.id, p.id) }) := by
  simp [unregister_from_activity, hfa, hfp, hmem]

/-! ## How rosters change under the write endpoints -/

lemma participantsOf_signup_ne {db : DB} {b : Activity} {aid pid : Nat}
    (hne : b.id ≠ aid) :
    participantsOf { db with signups := db.signups ++ [(aid, pid)] } b
      = participantsOf db b := by
  unfold participantsOf
  apply List.filter_congr
  intro q _
  rw [decide_eq_decide]
  simp [List.mem_append, hne]

lemma length_participantsOf_signup_existing {db : DB} {a : Activity}
    {p : Participant}
    (hp : p ∈ db.participants)
    (hnp : (a.id, p.id) ∉ db.signups)
    (hpids : db.participants.Pairwise (fun x y => x.id ≠ y.id)) :
    (participantsOf { db with signups := db.signups ++ [(a.id, p.id)] } a).length
      = (participantsOf db a).length + 1 := by
  unfold participantsOf
  apply length_filter_flip (participants_nodup hpids) hp
  · simpa using hnp
  · simp
  · intro q hq hqp
    have hid : q.id ≠ p.id := (hpids.forall pid_ne_symm) hq hp hqp
    rw [decide_eq_decide]
    simp [List.mem_append, hid]

lemma participantsOf_signup_new_ne {db : DB} {b : Activity} {aid : Nat}
    {e : String}
    (hne : b.id ≠ aid)
    (hbound : ∀ s ∈ db.signups, s.2 < db.nextParticipantId) :
    participantsOf { db with
      participants := db.participants ++ [⟨db.nextParticipantId, e⟩],
      nextParticipantId := db.nextParticipantId + 1,
      signups := db.signups ++ [(aid, db.nextParticipantId)] } b
      = participantsOf db b := by
  unfold participantsOf
  rw [show ({ db with
      participants := db.participants ++ [⟨db.nextParticipantId, e⟩],
      nextParticipantId := db.nextParticipantId + 1,
      signups := db.signups ++ [(aid, db.nextParticipantId)] } :
        DB).participants
      = db.participants ++ [⟨db.nextParticipantId, e⟩] from rfl]
  rw [List.filter_append]
  have h2 : List.filter
      (fun p => decide ((b.id, p.id) ∈ db.signups ++ [(aid, db.nextParticipantId)]))
      [(⟨db.nextParticipantId, e⟩ : Participant)] = [] := by
    simp only [List.filter_cons, List.filter_nil]
    rw [if_neg]
    simp only [decide_eq_true_eq, List.mem_append, List.mem_singleton]
    rintro (hmem | heq)
    · exact absurd (hbound _ hmem) (lt_irrefl _)
    · exact hne (congrArg Prod.fst heq)
  rw [h2, List.append_nil]
  apply List.filter_congr
  intro q _
  rw [decide_eq_decide]
  simp [List.mem_append, hne]

lemma participantsOf_signup_new_same {db : DB} {a : Activity} {e : String}
    (hpid : ∀ p ∈ db.participants, p.id < db.nextParticipantId) :
    participantsOf { db with
      participants := db.participants ++ [⟨db.nextParticipantId, e⟩],
      nextParticipantId := db.nextParticipantId + 1,
      signups := db.signups ++ [(a.id, db.nextParticipantId)] } a
      = participantsOf db a ++ [⟨db.nextParticipantId, e⟩] := by
  unfold participantsOf
  rw [show ({ db with
      participants := db.participants ++ [⟨db.nextParticipantId, e⟩],
      nextParticipantId := db.nextParticipantId + 1,
      signups := db.signups ++ [(a.id, db.nextParticipantId)] } :
        DB).participants
      = db.participants ++ [⟨db.nextParticipantId, e⟩] from rfl]
  rw [List.filter_append]
  have h2 : List.filter
      (fun p => decide ((a.id, p.id) ∈ db.signups ++ [(a.id, db.nextParticipantId)]))
      [(⟨db.nextParticipantId, e⟩ : Participant)]
      = [(⟨db.nextParticipantId, e⟩ : Participant)] := by
    simp
  rw [h2]
  congr 1
  apply List.filter_congr
  intro q hq
  have hid : q.id ≠ db.nextParticipantId := Nat.ne_of_lt (hpid q hq)
  rw [decide_eq_decide]
  simp [List.mem_append, hid]

lemma participantsOf_erase_ne {db : DB} {b : Activity} {aid pid : Nat}
    (hne : b.id ≠ aid) :
    participantsOf { db with signups := db.signups.erase (aid, pid) } b
      = participantsOf db b := by
  unfold participantsOf
  apply List.filter_congr
  intro q _
  rw [decide_eq_decide]
  exact List.mem_erase_of_ne (fun h => hne (congrArg Prod.fst h))

lemma length_participantsOf_erase {db : DB} {a : Activity} {p : Participant}
    (hp : p ∈ db.participants)
    (hin : (a.id, p.id) ∈ db.signups)
    (hnd : db.signups.Nodup)
    (hpids : db.participants.Pairwise (fun x y => x.id ≠ y.id)) :
    (participantsOf db a).length
      = (participantsOf
          { db with signups := db.signups.erase (a.id, p.id) } a).length + 1 := by
  unfold participantsOf
  apply length_filter_flip (participants_nodup hpids) hp
  · simp only [decide_eq_true_eq]
    rw [decide_eq_false_iff_not]
    intro hmem
    exact ((hnd.mem_erase_iff.mp hmem).1) rfl
  · simpa using hin
  · intro q hq hqp
    have hid : q.id ≠ p.id := (hpids.forall pid_ne_symm) hq hp hqp
    have hpairne : ((a.id, q.id) : Nat × Nat) ≠ (a.id, p.id) := by
      intro h
      exact hid (congrArg Prod.snd h)
    rw [decide_eq_decide]
    exact (List.mem_erase_of_ne hpairne).symm

lemma participantsOf_append_participant {db : DB} {b : Activity}
    {p : Participant} {k : Nat}
    (hnp : (b.id, p.id) ∉ db.signups) :
    participantsOf { db with
      participants := db.participants ++ [p], nextParticipantId := k } b
      = participantsOf db b := by
  unfold participantsOf
  rw [show ({ db with
      participants := db.participants ++ [p], nextParticipantId := k } :
        DB).participants = db.participants ++ [p] from rfl]
  rw [List.filter_append]
  simp [hnp]

/-! ## Preservation of the invariants -/

lemma signup_preserves_Wf {db : DB} (n e : String) (h : Wf db) :
    Wf (signup_for_activity db n e).2 := by
  cases hfa : findActivityByName db n with
  | none => rw [signup_eq_notFound hfa]; exact h
  | some a =>
    obtain ⟨haMem, -⟩ := findActivityByName_eq_some hfa
    cases hany : (participantsOf db a).any (fun p => p.email == e) with
    | true => rw [signup_eq_already hfa hany]; exact h
    | false =>
      by_cases hcap : a.max_participants ≠ 0 ∧
          ((participantsOf db a).length : Int) ≥ a.max_participants
      · rw [signup_eq_full hfa hany hcap]; exact h
      · cases hfp : findParticipantByEmail db e with
        | some p =>
          rw [signup_eq_success_existing hfa hany hcap hfp]
          show Wf { db with signups := db.signups ++ [(a.id, p.id)] }
          obtain ⟨hpMem, hpEmail⟩ := findParticipantByEmail_eq_some hfp
          have hnp : (a.id, p.id) ∉ db.signups := by
            intro hin
            exact (any_email_eq_false_iff.mp hany) p
              (mem_participantsOf.mpr ⟨hpMem, hin⟩) hpEmail
          refine ⟨h.namesUnique, h.actIdsUnique, h.emailsUnique,
            h.pidsUnique, ?_, h.maxNonneg, ?_, ?_, h.pidBound⟩
          · rw [List.nodup_append]
            refine ⟨h.signupsNodup, List.nodup_singleton _, ?_⟩
            intro x hx hmem
            rw [List.mem_singleton] at hmem
            exact hnp (hmem ▸ hx)
          · intro b hb hbpos
            by_cases hba : b = a
            · subst hba
              rw [length_participantsOf_signup_existing hpMem hnp h.pidsUnique]
              have hlt : ((participantsOf db b).length : Int) <
                  b.max_participants := by
                by_contra hge
                exact hcap ⟨ne_of_gt hbpos, not_lt.mp hge⟩
              omega
            · have hbid : b.id ≠ a.id :=
                (h.actIdsUnique.forall aid_ne_symm) hb haMem hba
              rw [participantsOf_signup_ne hbid]
              exact h.capacity b hb hbpos
          · intro s hs
            rcases List.mem_append.mp hs with hs | hs
            · exact h.signupPidBound s hs
            · rw [List.mem_singleton] at hs
              subst hs
              exact h.pidBound p hpMem
        | none =>
          rw [signup_eq_success_new hfa hany hcap hfp]
          show Wf { db with
            participants := db.participants ++ [⟨db.nextParticipantId, e⟩],
            nextParticipantId := db.nextParticipantId + 1,
            signups := db.signups ++ [(a.id, db.nextParticipantId)] }
          have hfresh : ∀ q ∈ db.participants, q.email ≠ e :=
            findParticipantByEmail_eq_none hfp
          have hnp : ((a.id, db.nextParticipantId) : Nat × Nat) ∉ db.signups := by
            intro hin
            exact absurd (h.signupPidBound _ hin) (lt_irrefl _)
          refine ⟨h.namesUnique, h.actIdsUnique, ?_, ?_, ?_, h.maxNonneg,
            ?_, ?_, ?_⟩
          · rw [List.pairwise_append]
            refine ⟨h.emailsUnique, List.pairwise_singleton _ _, ?_⟩
            intro x hx y hy
            rw [List.mem_singleton] at hy
            subst hy
            exact hfresh x hx
          · rw [List.pairwise_append]
            refine ⟨h.pidsUnique, List.pairwise_singleton _ _, ?_⟩
            intro x hx y hy
            rw [List.mem_singleton] at hy
            subst hy
            exact Nat.ne_of_lt (h.pidBound x hx)
          · rw [List.nodup_append]
            refine ⟨h.signupsNodup, List.nodup_singleton _, ?_⟩
            intro x hx hmem
            rw [List.mem_singleton] at hmem
            exact hnp (hmem ▸ hx)
          · intro b hb hbpos
            by_cases hba : b = a
            · subst hba
              rw [participantsOf_signup_new_same h.pidBound]
              rw [List.length_append, List.length_singleton]
              have hlt : ((participantsOf db b).length : Int) <
                  b.max_participants := by
                by_contra hge
                exact hcap ⟨ne_of_gt hbpos, not_lt.mp hge⟩
              omega
            · have hbid : b.id ≠ a.id :=
                (h.actIdsUnique.forall aid_ne_symm) hb haMem hba
              rw [participantsOf_signup_new_ne hbid h.signupPidBound]
              exact h.capacity b hb hbpos
          · intro s hs
            rcases List.mem_append.mp hs with hs | hs
            · exact Nat.lt_succ_of_lt (h.signupPidBound s hs)
            · rw [List.mem_singleton] at hs
              subst hs
              exact Nat.lt_succ_self _
          · intro q hq
            rcases List.mem_append.mp hq with hq | hq
            · exact Nat.lt_succ_of_lt (h.pidBound q hq)
            · rw [List.mem_singleton] at hq
              subst hq
              exact Nat.lt_succ_self _

lemma unregister_preserves_Wf {db : DB} (n e : String) (h : Wf db) :
    Wf (unregister_from_activity db n e).2 := by
  cases hfa : findActivityByName db n with
  | none => rw [unregister_eq_notFound hfa]; exact h
  | some a =>
    obtain ⟨haMem, -⟩ := findActivityByName_eq_some hfa
    cases hfp : findParticipantByEmail db e with
    | none => rw [unregister_eq_noParticipant hfa hfp]; exact h
    | some p =>
      by_cases hmem : p ∈ participantsOf db a
      · rw [unregister_eq_success hfa hfp hmem]
        show Wf { db with signups := db.signups.erase (a.id, p.id) }
        obtain ⟨hpMem, -⟩ := findParticipantByEmail_eq_some hfp
        have hin : (a.id, p.id) ∈ db.signups :=
          (mem_participantsOf.mp hmem).2
        refine ⟨h.namesUnique, h.actIdsUnique, h.emailsUnique,
          h.pidsUnique, h.signupsNodup.erase _, h.maxNonneg, ?_, ?_,
          h.pidBound⟩
        · intro b hb hbpos
          by_cases hba : b = a
          · subst hba
            have hdec := length_participantsOf_erase hpMem hin
              h.signupsNodup h.pidsUnique
            have hle := h.capacity b hb hbpos
            omega
          · have hbid : b.id ≠ a.id :=
              (h.actIdsUnique.forall aid_ne_symm) hb haMem hba
            rw [participantsOf_erase_ne hbid]
            exact h.capacity b hb hbpos
        · intro s hs
          exact h.signupPidBound s ((List.erase_sublist _ _).subset hs)
      · rw [unregister_eq_notEnrolled hfa hfp hmem]; exact h

/-! ## Claim theorems -/

/-- C1: for every `signup(activityName, email)` call: if no activity with
that name exists, signup signals NotFound (HTTP 404) and leaves the store
unchanged; if the activity exists, the email is not already among its
participants, and capacity is not exceeded, then signup finds or creates
the Participant with that email, adds the (activity, participant)
enrollment, and returns success (HTTP 200). -/
theorem signup_contract (db : DB) (n e : String) :
    (findActivityByName db n = none →
      signup_for_activity db n e = (.notFound, db) ∧
      (signup_for_activity db n e).1.status = 404) ∧
    (∀ a : Activity, findActivityByName db n = some a →
      (∀ q ∈ participantsOf db a, q.email ≠ e) →
      ¬(a.max_participants ≠ 0 ∧
        ((participantsOf db a).length : Int) ≥ a.max_participants) →
      (signup_for_activity db n e).1 = .success ∧
      (signup_for_activity db n e).1.status = 200 ∧
      ∃ p : Participant, p.email = e ∧
        p ∈ (signup_for_activity db n e).2.participants ∧
        (a.id, p.id) ∈ (signup_for_activity db n e).2.signups) := by
  constructor
  · intro hfa
    rw [signup_eq_notFound hfa]
    exact ⟨rfl, rfl⟩
  · intro a hfa hne hcap
    have hany : (participantsOf db a).any (fun p => p.email == e) = false :=
      any_email_eq_false_iff.mpr hne
    cases hfp : findParticipantByEmail db e with
    | some p =>
      rw [signup_eq_success_existing hfa hany hcap hfp]
      obtain ⟨hpMem, hpEmail⟩ := findParticipantByEmail_eq_some hfp
      exact ⟨rfl, rfl, p, hpEmail, hpMem, by simp⟩
    | none =>
      rw [signup_eq_success_new hfa hany hcap hfp]
      exact ⟨rfl, rfl, ⟨db.nextParticipantId, e⟩, rfl, by simp, by simp⟩

/-- C2: for an activity looked up by name and an email not already on its
roster, signup signals Full (HTTP 400) iff `max_participants > 0` and the
roster length has reached `max_participants`; in particular with
`max_participants = 0` signup never returns Full.  (`max_participants` is
non-negative by the data model, hypothesis `hmax`.) -/
theorem signup_full_iff (db : DB) (n e : String) (a : Activity)
    (hfa : findActivityByName db n = some a)
    (hmax : 0 ≤ a.max_participants)
    (hne : ∀ q ∈ participantsOf db a, q.email ≠ e) :
    ((signup_for_activity db n e).1 = .full ↔
      0 < a.max_participants ∧
        ((participantsOf db a).length : Int) ≥ a.max_participants) ∧
    (a.max_participants = 0 → (signup_for_activity db n e).1 ≠ .full) := by
  have hany : (participantsOf db a).any (fun p => p.email == e) = false :=
    any_email_eq_false_iff.mpr hne
  have hiff : (signup_for_activity db n e).1 = .full ↔
      0 < a.max_participants ∧
        ((participantsOf db a).length : Int) ≥ a.max_participants := by
    constructor
    · intro hfull
      by_cases hcap : a.max_participants ≠ 0 ∧
          ((participantsOf db a).length : Int) ≥ a.max_participants
      · exact ⟨lt_of_le_of_ne hmax (Ne.symm hcap.1), hcap.2⟩
      · exfalso
        cases hfp : findParticipantByEmail db e with
        | some p =>
          rw [signup_eq_success_existing hfa hany hcap hfp] at hfull
          simp at hfull
        | none =>
          rw [signup_eq_success_new hfa hany hcap hfp] at hfull
          simp at hfull
    · rintro ⟨hpos, hge⟩
      rw [signup_eq_full hfa hany ⟨ne_of_gt hpos, hge⟩]
  refine ⟨hiff, ?_⟩
  intro h0 hfull
  have hres := hiff.mp hfull
  rw [h0] at hres
  exact absurd hres.1 (lt_irrefl 0)

/-- C4: for every `unregister(activityName, email)` call: NotFound
(HTTP 404) with no mutation when the activity is absent; NotEnrolled
(HTTP 400) with no mutation when the participant is absent or not on the
roster; otherwise success (HTTP 200) removing exactly that enrollment
row. -/
theorem unregister_contract (db : DB) (n e : String) :
    (findActivityByName db n = none →
      unregister_from_activity db n e = (.notFound, db) ∧
      (unregister_from_activity db n e).1.status = 404) ∧
    (∀ a : Activity, findActivityByName db n = some a →
      (findParticipantByEmail db e = none ∨
        ∃ p, findParticipantByEmail db e = some p ∧
          p ∉ participantsOf db a) →
      unregister_from_activity db n e = (.notEnrolled, db) ∧
      (unregister_from_activity db n e).1.status = 400) ∧
    (∀ (a : Activity) (p : Participant), findActivityByName db n = some a →
      findParticipantByEmail db e = some p →
      p ∈ participantsOf db a →
      unregister_from_activity db n e =
        (.success, { db with signups := db.signups.erase (a.id, p.id) }) ∧
      (unregister_from_activity db n e).1.status = 200) := by
  refine ⟨?_, ?_, ?_⟩
  · intro hfa
    rw [unregister_eq_notFound hfa]
    exact ⟨rfl, rfl⟩
  · intro a hfa hd
    rcases hd with hfp | ⟨p, hfp, hmem⟩
    · rw [unregister_eq_noParticipant hfa hfp]
      exact ⟨rfl, rfl⟩
    · rw [unregister_eq_notEnrolled hfa hfp hmem]
      exact ⟨rfl, rfl⟩
  · intro a p hfa hfp hmem
    rw [unregister_eq_success hfa hfp hmem]
    exact ⟨rfl, rfl⟩

/-- C5: every operation (listActivities, signup, unregister) preserves
the data-model invariants: globally unique activity names, globally
unique participant emails, no repeated enrollment pair, and roster size
at most `max_participants` whenever `max_participants > 0` (all part of
`Wf`). -/
theorem ops_preserve_invariants (db : DB) (n e : String) (h : Wf db) :
    Wf (get_activities db).2 ∧
    Wf (signup_for_activity db n e).2 ∧
    Wf (unregister_from_activity db n e).2 :=
  ⟨h, signup_preserves_Wf n e h, unregister_preserves_Wf n e h⟩

/-- C8: listActivities has no error conditions (it is a total read-only
query: the store comes back unchanged) and returns one entry per stored
Activity, mapping the activity's name to its description, schedule,
max_participants and current participant emails. -/
theorem get_activities_contract (db : DB) :
    (get_activities db).2 = db ∧
    (get_activities db).1.length = db.activities.length ∧
    ∀ a ∈ db.activities,
      (a.name, (⟨a.description, a.schedule, a.max_participants,
        (participantsOf db a).map Participant.email⟩ : ActivityView))
        ∈ (get_activities db).1 := by
  refine ⟨rfl, by simp [get_activities], ?_⟩
  intro a ha
  exact List.mem_map_of_mem _ ha

/-- C10: every error exit of signup and unregister (NotFound,
AlreadyEnrolled, Full, NotEnrolled) leaves the entire store state
unchanged — in particular a failed signup creates no Participant row,
because the find-or-create runs only after all checks pass. -/
theorem error_exits_preserve_state (db : DB) (n e : String) :
    ((signup_for_activity db n e).1 ≠ .success →
      (signup_for_activity db n e).2 = db) ∧
    ((unregister_from_activity db n e).1 ≠ .success →
      (unregister_from_activity db n e).2 = db) := by
  constructor
  · intro hne
    cases hfa : findActivityByName db n with
    | none => rw [signup_eq_notFound hfa]
    | some a =>
      cases hany : (participantsOf db a).any (fun p => p.email == e) with
      | true => rw [signup_eq_already hfa hany]
      | false =>
        by_cases hcap : a.max_participants ≠ 0 ∧
            ((participantsOf db a).length : Int) ≥ a.max_participants
        · rw [signup_eq_full hfa hany hcap]
        · exfalso
          apply hne
          cases hfp : findParticipantByEmail db e with
          | some p => rw [signup_eq_success_existing hfa hany hcap hfp]
          | none => rw [signup_eq_success_new hfa hany hcap hfp]
  · intro hne
    cases hfa : findActivityByName db n with
    | none => rw [unregister_eq_notFound hfa]
    | some a =>
      cases hfp : findParticipantByEmail db e with
      | none => rw [unregister_eq_noParticipant hfa hfp]
      | some p =>
        by_cases hmem : p ∈ participantsOf db a
        · exfalso
          apply hne
          rw [unregister_eq_success hfa hfp hmem]
        · rw [unregister_eq_notEnrolled hfa hfp hmem]

/-- C3: after a successful signup of an (activity, email) pair, calling
signup again with the same pair returns AlreadyEnrolled (HTTP 400) and
leaves the store — in particular the activity's enrollment count —
unchanged. -/
theorem signup_twice_alreadyEnrolled (db : DB) (n e : String)
    (h : (signup_for_activity db n e).1 = .success) :
    (signup_for_activity (signup_for_activity db n e).2 n e).1
      = .alreadyEnrolled ∧
    (signup_for_activity (signup_for_activity db n e).2 n e).1.status
      = 400 ∧
    (signup_for_activity (signup_for_activity db n e).2 n e).2
      = (signup_for_activity db n e).2 := by
  cases hfa : findActivityByName db n with
  | none => rw [signup_eq_notFound hfa] at h; simp at h
  | some a =>
    cases hany : (participantsOf db a).any (fun p => p.email == e) with
    | true => rw [signup_eq_already hfa hany] at h; simp at h
    | false =>
      by_cases hcap : a.max_participants ≠ 0 ∧
          ((participantsOf db a).length : Int) ≥ a.max_participants
      · rw [signup_eq_full hfa hany hcap] at h; simp at h
      · cases hfp : findParticipantByEmail db e with
        | some p =>
          obtain ⟨hpMem, hpEmail⟩ := findParticipantByEmail_eq_some hfp
          have h1 := signup_eq_success_existing hfa hany hcap hfp
          have hfa1 : findActivityByName
              { db with signups := db.signups ++ [(a.id, p.id)] } n
              = some a := hfa
          have hany1 : (participantsOf
              { db with signups := db.signups ++ [(a.id, p.id)] } a).any
                (fun q => q.email == e) = true := by
            rw [List.any_eq_true]
            exact ⟨p, mem_participantsOf.mpr ⟨hpMem, by simp⟩,
              by simp [hpEmail]⟩
          have h2 := signup_eq_already hfa1 hany1
          simp [h1, h2, SignupResult.status]
        | none =>
          have h1 := signup_eq_success_new hfa hany hcap hfp
          have hfa1 : findActivityByName
              { db with
                participants :=
                  db.participants ++ [⟨db.nextParticipantId, e⟩],
                nextParticipantId := db.nextParticipantId + 1,
                signups := db.signups ++ [(a.id, db.nextParticipantId)] } n
              = some a := hfa
          have hany1 : (participantsOf
              { db with
                participants :=
                  db.participants ++ [⟨db.nextParticipantId, e⟩],
                nextParticipantId := db.nextParticipantId + 1,
                signups := db.signups ++ [(a.id, db.nextParticipantId)] } a).any
                (fun q => q.email == e) = true := by
            rw [List.any_eq_true]
            exact ⟨⟨db.nextParticipantId, e⟩,
              mem_participantsOf.mpr ⟨by simp, by simp⟩, by simp⟩
          have h2 := signup_eq_already hfa1 hany1
          simp [h1, h2, SignupResult.status]

/-! ## Seeding lemmas -/

lemma seedEnroll_activities (aid : Nat) (d : DB) (email : String) :
    (seedEnroll aid d email).activities = d.activities := by
  cases hfp : findParticipantByEmail d email <;> simp [seedEnroll, hfp]

lemma seedFold_activities (aid : Nat) (l : List String) (d : DB) :
    (l.foldl (seedEnroll aid) d).activities = d.activities := by
  induction l generalizing d with
  | nil => rfl
  | cons x xs ih =>
    rw [List.foldl_cons, ih, seedEnroll_activities]

lemma seedOne_activities (d : DB) (nm : String) (m : SeedMeta) :
    (seedOne d nm m).activities
      = d.activities ++ [⟨d.nextActivityId, nm, m.description, m.schedule,
          m.max_participants⟩] := by
  simp only [seedOne]
  rw [seedFold_activities]

lemma seed_db_of_ne_nil {db : DB} (h : db.activities ≠ []) :
    seed_db db = db := by
  unfold seed_db
  cases hA : db.activities with
  | nil => exact absurd hA h
  | cons x xs => rfl

lemma seed_db_of_nil {db : DB} (h : db.activities = []) :
    seed_db db
      = initial_activities.foldl (fun d nm => seedOne d nm.1 nm.2) db := by
  unfold seed_db
  rw [h]
  rfl

/-- C9: seeding is idempotent: it changes nothing when the store already
holds an Activity row, so seeding twice equals seeding once; and on an
empty store it populates exactly the fixed set of named activities with
their initial rosters. -/
theorem seed_db_idempotent :
    (∀ db : DB, db.activities ≠ [] → seed_db db = db) ∧
    (∀ db : DB, seed_db (seed_db db) = seed_db db) ∧
    (get_activities (seed_db emptyDB)).1 =
      [("Chess Club",
        ⟨"Learn strategies and compete in chess tournaments",
         "Fridays, 3:30 PM - 5:00 PM", 12,
         ["michael@mergington.edu", "daniel@mergington.edu"]⟩),
       ("Programming Class",
        ⟨"Learn programming fundamentals and build software projects",
         "Tuesdays and Thursdays, 3:30 PM - 4:30 PM", 20,
         ["emma@mergington.edu", "sophia@mergington.edu"]⟩),
       ("Gym Class",
        ⟨"Physical education and sports activities",
         "Mondays, Wednesdays, Fridays, 2:00 PM - 3:00 PM", 30,
         ["john@mergington.edu", "olivia@mergington.edu"]⟩)] := by
  refine ⟨fun db h => seed_db_of_ne_nil h, ?_, ?_⟩
  · intro db
    by_cases h : db.activities = []
    · apply seed_db_of_ne_nil
      rw [seed_db_of_nil h]
      simp [initial_activities, List.foldl_cons, List.foldl_nil,
        seedOne_activities]
    · rw [seed_db_of_ne_nil h]
      exact seed_db_of_ne_nil h
  · rfl

/-- C6: from any valid state in which the pair satisfies signup's
preconditions (activity found, email not on its roster, capacity not
exceeded), the sequence signup, then unregister, then signup again for
the same (activity, email) pair returns success each time. -/
theorem signup_unregister_signup_roundtrip (db : DB) (n e : String)
    (a : Activity) (hWf : Wf db)
    (hfa : findActivityByName db n = some a)
    (hne : ∀ q ∈ participantsOf db a, q.email ≠ e)
    (hcap : ¬(a.max_participants ≠ 0 ∧
      ((participantsOf db a).length : Int) ≥ a.max_participants)) :
    (signup_for_activity db n e).1 = .success ∧
    (unregister_from_activity (signup_for_activity db n e).2 n e).1
      = .success ∧
    (signup_for_activity
      (unregister_from_activity (signup_for_activity db n e).2 n e).2
      n e).1 = .success := by
  have hany : (participantsOf db a).any (fun p => p.email == e) = false :=
    any_email_eq_false_iff.mpr hne
  cases hfp : findParticipantByEmail db e with
  | some p =>
    obtain ⟨hpMem, hpEmail⟩ := findParticipantByEmail_eq_some hfp
    have hnp : (a.id, p.id) ∉ db.signups := by
      intro hin
      exact hne p (mem_participantsOf.mpr ⟨hpMem, hin⟩) hpEmail
    have h1 := signup_eq_success_existing hfa hany hcap hfp
    have hfa1 : findActivityByName
        { db with signups := db.signups ++ [(a.id, p.id)] } n = some a := hfa
    have hfp1 : findParticipantByEmail
        { db with signups := db.signups ++ [(a.id, p.id)] } e = some p := hfp
    have hmem1 : p ∈ participantsOf
        { db with signups := db.signups ++ [(a.id, p.id)] } a :=
      mem_participantsOf.mpr ⟨hpMem, by simp⟩
    have herase : (db.signups ++ [(a.id, p.id)]).erase (a.id, p.id)
        = db.signups := by
      rw [List.erase_append_right _ hnp, List.erase_cons_head,
        List.append_nil]
    have h2 : unregister_from_activity
        { db with signups := db.signups ++ [(a.id, p.id)] } n e
        = (.success, db) := by
      rw [unregister_eq_success hfa1 hfp1 hmem1]
      congr 1
      show ({ db with
        signups := (db.signups ++ [(a.id, p.id)]).erase (a.id, p.id) } : DB)
        = db
      rw [herase]
    exact ⟨by simp [h1], by simp [h1, h2], by simp [h1, h2]⟩
  | none =>
    have h1 := signup_eq_success_new hfa hany hcap hfp
    have hfa1 : findActivityByName
        { db with
          participants := db.participants ++ [⟨db.nextParticipantId, e⟩],
          nextParticipantId := db.nextParticipantId + 1,
          signups := db.signups ++ [(a.id, db.nextParticipantId)] } n
        = some a := hfa
    have hfp1 : findParticipantByEmail
        { db with
          participants := db.participants ++ [⟨db.nextParticipantId, e⟩],
          nextParticipantId := db.nextParticipantId + 1,
          signups := db.signups ++ [(a.id, db.nextParticipantId)] } e
        = some ⟨db.nextParticipantId, e⟩ := by
      show (db.participants ++ [(⟨db.nextParticipantId, e⟩ : Participant)]).find?
          (fun p => p.email == e) = some (⟨db.nextParticipantId, e⟩ : Participant)
      rw [List.find?_append,
        show db.participants.find? (fun p => p.email == e) = none from hfp]
      simp
    have hmem1 : (⟨db.nextParticipantId, e⟩ : Participant) ∈ participantsOf
        { db with
          participants := db.participants ++ [⟨db.nextParticipantId, e⟩],
          nextParticipantId := db.nextParticipantId + 1,
          signups := db.signups ++ [(a.id, db.nextParticipantId)] } a :=
      mem_participantsOf.mpr ⟨by simp, by simp⟩
    have hnp : ((a.id, db.nextParticipantId) : Nat × Nat) ∉ db.signups := by
      intro hin
      exact absurd (hWf.signupPidBound _ hin) (lt_irrefl _)
    have herase : (db.signups ++ [(a.id, db.nextParticipantId)]).erase
        (a.id, db.nextParticipantId) = db.signups := by
      rw [List.erase_append_right _ hnp, List.erase_cons_head,
        List.append_nil]
    have h2 : unregister_from_activity
        { db with
          participants := db.participants ++ [⟨db.nextParticipantId, e⟩],
          nextParticipantId := db.nextParticipantId + 1,
          signups := db.signups ++ [(a.id, db.nextParticipantId)] } n e
        = (.success, { db with
            participants := db.participants ++ [⟨db.nextParticipantId, e⟩],
            nextParticipantId := db.nextParticipantId + 1,
            signups := db.signups }) := by
      rw [unregister_eq_success hfa1 hfp1 hmem1]
      congr 1
      show ({ db with
        participants := db.participants ++ [⟨db.nextParticipantId, e⟩],
        nextParticipantId := db.nextParticipantId + 1,
        signups := (db.signups ++ [(a.id, db.nextParticipantId)]).erase
          (a.id, db.nextParticipantId) } : DB) = _
      rw [herase]
    have hfa2 : findActivityByName
        { db with
          participants := db.participants ++ [⟨db.nextParticipantId, e⟩],
          nextParticipantId := db.nextParticipantId + 1,
          signups := db.signups } n = some a := hfa
    have hroster : participantsOf
        { db with
          participants := db.participants ++ [⟨db.nextParticipantId, e⟩],
          nextParticipantId := db.nextParticipantId + 1,
          signups := db.signups } a = participantsOf db a := by
      exact participantsOf_append_participant hnp
    have hany2 : (participantsOf
        { db with
          participants := db.participants ++ [⟨db.nextParticipantId, e⟩],
          nextParticipantId := db.nextParticipantId + 1,
          signups := db.signups } a).any (fun q => q.email == e)
        = false := by
      rw [hroster]
      exact hany
    have hcap2 : ¬(a.max_participants ≠ 0 ∧
        ((participantsOf
          { db with
            participants := db.participants ++ [⟨db.nextParticipantId, e⟩],
            nextParticipantId := db.nextParticipantId + 1,
            signups := db.signups } a).length : Int)
          ≥ a.max_participants) := by
      rw [hroster]
      exact hcap
    have hfp2 : findParticipantByEmail
        { db with
          participants := db.participants ++ [⟨db.nextParticipantId, e⟩],
          nextParticipantId := db.nextParticipantId + 1,
          signups := db.signups } e = some ⟨db.nextParticipantId, e⟩ := hfp1
    have h3 := signup_eq_success_existing hfa2 hany2 hcap2 hfp2
    exact ⟨by simp [h1], by simp [h1, h2], by simp [h1, h2, h3]⟩

/-! ## Concrete witnesses -/

/-- A small concrete store used to instantiate the theorems: one
activity with capacity 2 and one enrolled participant. -/
def actEx : Activity := ⟨1, "Chess Club", "d", "s", 2⟩

def pBob : Participant := ⟨1, "bob@x.edu"⟩

def dbEx : DB := ⟨[actEx], [pBob], [(1, 1)], 2, 2⟩

/-- A concrete store whose single activity is at capacity. -/
def actFull : Activity := ⟨1, "Chess Club", "d", "s", 1⟩

def dbFull : DB := ⟨[actFull], [pBob], [(1, 1)], 2, 2⟩

theorem signup_contract_witness :
    (signup_for_activity dbEx "Chess Club" "amy@x.edu").1 = .success ∧
    (signup_for_activity dbEx "Chess Club" "amy@x.edu").1.status = 200 ∧
    ∃ p : Participant, p.email = "amy@x.edu" ∧
      p ∈ (signup_for_activity dbEx "Chess Club" "amy@x.edu").2.participants ∧
      (actEx.id, p.id)
        ∈ (signup_for_activity dbEx "Chess Club" "amy@x.edu").2.signups :=
  (signup_contract dbEx "Chess Club" "amy@x.edu").2 actEx
    (by decide) (by decide) (by decide)

theorem signup_full_iff_witness :
    ((signup_for_activity dbFull "Chess Club" "amy@x.edu").1 = .full ↔
      0 < actFull.max_participants ∧
        ((participantsOf dbFull actFull).length : Int)
          ≥ actFull.max_participants) ∧
    (actFull.max_participants = 0 →
      (signup_for_activity dbFull "Chess Club" "amy@x.edu").1 ≠ .full) :=
  signup_full_iff dbFull "Chess Club" "amy@x.edu" actFull
    (by decide) (by decide) (by decide)

theorem signup_twice_alreadyEnrolled_witness :
    (signup_for_activity
      (signup_for_activity dbEx "Chess Club" "amy@x.edu").2
      "Chess Club" "amy@x.edu").1 = .alreadyEnrolled ∧
    (signup_for_activity
      (signup_for_activity dbEx "Chess Club" "amy@x.edu").2
      "Chess Club" "amy@x.edu").1.status = 400 ∧
    (signup_for_activity
      (signup_for_activity dbEx "Chess Club" "amy@x.edu").2
      "Chess Club" "amy@x.edu").2
      = (signup_for_activity dbEx "Chess Club" "amy@x.edu").2 :=
  signup_twice_alreadyEnrolled dbEx "Chess Club" "amy@x.edu" (by decide)

theorem unregister_contract_witness :
    unregister_from_activity dbEx "Chess Club" "bob@x.edu"
      = (.success,
         { dbEx with signups := dbEx.signups.erase (actEx.id, pBob.id) }) ∧
    (unregister_from_activity dbEx "Chess Club" "bob@x.edu").1.status
      = 200 :=
  (unregister_contract dbEx "Chess Club" "bob@x.edu").2.2 actEx pBob
    (by decide) (by decide) (by decide)

theorem ops_preserve_invariants_witness :
    Wf (get_activities dbEx).2 ∧
    Wf (signup_for_activity dbEx "Chess Club" "amy@x.edu").2 ∧
    Wf (unregister_from_activity dbEx "Chess Club" "amy@x.edu").2 :=
  ops_preserve_invariants dbEx "Chess Club" "amy@x.edu"
    ⟨by decide, by decide, by decide, by decide, by decide, by decide,
     by decide, by decide, by decide⟩

theorem signup_unregister_signup_roundtrip_witness :
    (signup_for_activity dbEx "Chess Club" "amy@x.edu").1 = .success ∧
    (unregister_from_activity
      (signup_for_activity dbEx "Chess Club" "amy@x.edu").2
      "Chess Club" "amy@x.edu").1 = .success ∧
    (signup_for_activity
      (unregister_from_activity
        (signup_for_activity dbEx "Chess Club" "amy@x.edu").2
        "Chess Club" "amy@x.edu").2
      "Chess Club" "amy@x.edu").1 = .success :=
  signup_unregister_signup_roundtrip dbEx "Chess Club" "amy@x.edu" actEx
    ⟨by decide, by decide, by decide, by decide, by decide, by decide,
     by decide, by decide, by decide⟩
    (by decide) (by decide) (by decide)

theorem get_activities_contract_witness :
    (actEx.name, (⟨actEx.description, actEx.schedule,
      actEx.max_participants,
      (participantsOf dbEx actEx).map Participant.email⟩ : ActivityView))
      ∈ (get_activities dbEx).1 :=
  (get_activities_contract dbEx).2.2 actEx (by decide)

theorem seed_db_idempotent_witness : seed_db dbEx = dbEx :=
  seed_db_idempotent.1 dbEx (by decide)

theorem error_exits_preserve_state_witness :
    (signup_for_activity emptyDB "Chess Club" "amy@x.edu").2 = emptyDB ∧
    (unregister_from_activity emptyDB "Chess Club" "amy@x.edu").2
      = emptyDB :=
  ⟨(error_exits_preserve_state emptyDB "Chess Club" "amy@x.edu").1
      (by decide),
   (error_exits_preserve_state emptyDB "Chess Club" "amy@x.edu").2
      (by decide)⟩

end Mergington
